import Mathlib

/-!
Verification of the `anthropic_adapter` repository: a protocol-translating
reverse proxy exposing an Anthropic-style Messages API in front of an
OpenAI-compatible upstream (Chat-Completions or Responses flavor).

This file shallowly embeds the translation and streaming logic of
`src/utils.py`, the flavor detection of `src/constants.py`, and the endpoint
control flow of `src/routers/messages.py` and `src/routers/count_tokens.py`,
and proves or refutes the frozen specification claims about them.

Conventions of the embedding:
* Python dicts parsed from JSON become typed structures; a field that the code
  reads with `d.get(k)` is an `Option`, a field read with `d[k]` is required.
* Python truthiness on strings/lists is modeled explicitly (`"" `and `[]` are
  falsy).
* Functions that can raise (`d[k]` on a missing key, `list[-1]` on an empty
  list, `json.loads` on bad input) return `Except`/`Option`.
* The standard-library `json.dumps`/`json.loads` pair used by the code is
  modeled on a faithful fragment: JSON numbers are integers (floats are not
  shallowly embeddable) and strings range over Unicode scalar values.
  `dumps` reproduces CPython's defaults: separators `", "` and `": "`,
  `ensure_ascii=True` escaping (including `\uXXXX` surrogate pairs for
  astral characters), and the short escapes for `\\ \" \b \f \n \r \t`.
-/

namespace AnthropicAdapter

/-! ## The JSON value model (fragment of Python's `json` module) -/

/-- A JSON value as handled by Python's `json` module, restricted to integer
numbers.  Objects are insertion-ordered key/value lists, matching Python
dicts. -/
inductive Json where
  | null
  | bool (b : Bool)
  | num (i : Int)
  | str (s : String)
  | arr (elems : List Json)
  | obj (members : List (String × Json))

/-! ### Serialisation: the model of `json.dumps` (CPython defaults) -/

/-- Lower-case hex digit for `k < 16`, as emitted by CPython's `'\u%04x'`. -/
def hexDig (k : Nat) : Char :=
  if k < 10 then Char.ofNat (48 + k) else Char.ofNat (87 + k)

/-- The four hex digits of `n % 0x10000`, most significant first. -/
def hex4Chars (n : Nat) : List Char :=
  [hexDig (n / 4096 % 16), hexDig (n / 256 % 16), hexDig (n / 16 % 16), hexDig (n % 16)]

/-- One source character, escaped as CPython's `ensure_ascii` encoder does:
short escapes for the seven specials, printable ASCII verbatim, everything
else as `\uXXXX` (a surrogate pair when the scalar value exceeds `0xFFFF`). -/
def escChar (c : Char) : List Char :=
  if c = '"' then ['\\', '"']
  else if c = '\\' then ['\\', '\\']
  else if c = '\n' then ['\\', 'n']
  else if c = '\r' then ['\\', 'r']
  else if c = '\t' then ['\\', 't']
  else if c.toNat = 8 then ['\\', 'b']
  else if c.toNat = 12 then ['\\', 'f']
  else if 32 ≤ c.toNat ∧ c.toNat ≤ 126 then [c]
  else if c.toNat < 65536 then '\\' :: 'u' :: hex4Chars c.toNat
  else
    ('\\' :: 'u' :: hex4Chars (55296 + (c.toNat - 65536) / 1024))
      ++ ('\\' :: 'u' :: hex4Chars (56320 + (c.toNat - 65536) % 1024))

/-- The escaped body of a JSON string literal. -/
def strBody (s : String) : List Char := s.data.flatMap escChar

/-- A complete JSON string literal: quote, escaped body, quote. -/
def strLit (s : String) : List Char := '"' :: (strBody s ++ ['"'])

/-- The decimal digit character of `k < 10`. -/
def digCh (k : Nat) : Char := Char.ofNat (48 + k)

/-- Decimal digits of a natural number, most significant first (as produced
by Python's `repr` of a non-negative `int`). -/
def natChars (n : Nat) : List Char :=
  if n < 10 then [digCh n] else natChars (n / 10) ++ [digCh (n % 10)]
termination_by n
decreasing_by omega

/-- Decimal form of an integer: optional minus sign, then digits. -/
def intChars (i : Int) : List Char :=
  if i < 0 then '-' :: natChars i.natAbs else natChars i.natAbs

mutual

/-- Characters of `json.dumps(v)` with CPython's default separators
(`", "` between items, `": "` after keys). -/
def dumpV : Json → List Char
  | .bool false => ['f', 'a', 'l', 's', 'e']
  | .bool true => ['t', 'r', 'u', 'e']
  | .null => ['n', 'u', 'l', 'l']
  | .num i => intChars i
  | .str s => strLit s
  | .arr [] => ['[', ']']
  | .arr (v :: vs) => '[' :: (dumpV v ++ dumpISep vs ++ [']'])
  | .obj [] => ['{', '}']
  | .obj (m :: ms) => '{' :: (dumpMemb m ++ dumpMSep ms ++ ['}'])

/-- `", item"` for each further array element. -/
def dumpISep : List Json → List Char
  | [] => []
  | v :: vs => ',' :: ' ' :: (dumpV v ++ dumpISep vs)

/-- One object member: `"key": value`. -/
def dumpMemb : String × Json → List Char
  | (k, v) => strLit k ++ (':' :: ' ' :: dumpV v)

/-- `", member"` for each further object member. -/
def dumpMSep : List (String × Json) → List Char
  | [] => []
  | m :: ms => ',' :: ' ' :: (dumpMemb m ++ dumpMSep ms)

end

/-- The model of `json.dumps` (CPython defaults, `ensure_ascii=True`). -/
def Json.dumps (j : Json) : String := ⟨dumpV j⟩

/-! ### Deserialisation: the model of `json.loads`

The parser mirrors Python's: JSON whitespace is `' ' '\t' '\n' '\r'`, string
escapes are decoded (surrogate pairs are recombined; a lone surrogate is
rejected since Lean strings hold Unicode scalar values only), numbers are
decimal integers, and the whole input must be consumed.  Recursion is on an
explicit fuel, set amply at the top level. -/

/-- JSON whitespace, as in Python's `_w` regex (` \t\n\r`). -/
def jws (c : Char) : Bool := c == ' ' || c == '\t' || c == '\n' || c == '\r'

/-- Drop leading JSON whitespace. -/
def skipWs : List Char → List Char
  | c :: r => if jws c then skipWs r else c :: r
  | [] => []

/-- ASCII decimal digit test. -/
def jdigit (c : Char) : Bool := 48 ≤ c.toNat && c.toNat ≤ 57

/-- Split a leading run of decimal digits off the input. -/
def grabDigits : List Char → List Char × List Char
  | c :: r =>
    if jdigit c then
      let p := grabDigits r
      (c :: p.1, p.2)
    else ([], c :: r)
  | [] => ([], [])

/-- The natural number a big-endian digit run denotes. -/
def digitsVal (ds : List Char) : Nat :=
  ds.foldl (fun a c => a * 10 + (c.toNat - 48)) 0

/-- Parse a decimal integer (optional minus sign, then digits). -/
def parseJInt (cs : List Char) : Option (Int × List Char) :=
  let neg : Bool := cs.head? = some '-'
  match grabDigits (if neg then cs.tail else cs) with
  | ([], _) => none
  | (ds, r2) => some (if neg then -(digitsVal ds : Int) else (digitsVal ds : Int), r2)

/-- The value of one hex digit, either case. -/
def hexVal (c : Char) : Option Nat :=
  if 48 ≤ c.toNat ∧ c.toNat ≤ 57 then some (c.toNat - 48)
  else if 97 ≤ c.toNat ∧ c.toNat ≤ 102 then some (c.toNat - 87)
  else if 65 ≤ c.toNat ∧ c.toNat ≤ 70 then some (c.toNat - 55)
  else none

/-- The value of a four-hex-digit group, as in `\uXXXX`. -/
def hexQuad (a b c d : Char) : Option Nat :=
  match hexVal a, hexVal b, hexVal c, hexVal d with
  | some va, some vb, some vc, some vd => some (((va * 16 + vb) * 16 + vc) * 16 + vd)
  | _, _, _, _ => none

/-- Decode one short escape character. -/
def escRev : Char → Option Char
  | '"' => some '"'
  | '\\' => some '\\'
  | '/' => some '/'
  | 'b' => some (Char.ofNat 8)
  | 'f' => some (Char.ofNat 12)
  | 'n' => some '\n'
  | 'r' => some '\r'
  | 't' => some '\t'
  | _ => none

/-- Decode the hex-digit part of a `\uXXXX` escape (the input starts right
after `\u`), recombining a surrogate pair into one scalar value.  An unpaired
surrogate fails: Lean strings hold Unicode scalar values only. -/
def uEsc : List Char → Option (Char × List Char)
  | a :: b :: c :: d :: r =>
    match hexQuad a b c d with
    | none => none
    | some n =>
      if 55296 ≤ n ∧ n ≤ 56319 then
        match r with
        | '\\' :: 'u' :: a2 :: b2 :: c2 :: d2 :: r2 =>
          match hexQuad a2 b2 c2 d2 with
          | none => none
          | some m =>
            if 56320 ≤ m ∧ m ≤ 57343 then
              some (Char.ofNat (65536 + (n - 55296) * 1024 + (m - 56320)), r2)
            else none
        | _ => none
      else if 56320 ≤ n ∧ n ≤ 57343 then none
      else some (Char.ofNat n, r)
  | _ => none

/-- Parse the body of a string literal after the opening quote, accumulating
decoded characters in reverse.  Fuel-bounded; every step consumes at least one
character, so fuel `length + 1` never runs out. -/
def parseJStrF : Nat → List Char → List Char → Option (String × List Char)
  | 0, _, _ => none
  | fu + 1, acc, cs =>
    match cs with
    | [] => none
    | c :: r =>
      if c = '"' then some (⟨acc.reverse⟩, r)
      else if c = '\\' then
        match r with
        | [] => none
        | e :: r2 =>
          if e = 'u' then
            match uEsc r2 with
            | none => none
            | some (ch, r3) => parseJStrF fu (ch :: acc) r3
          else
            match escRev e with
            | none => none
            | some ch => parseJStrF fu (ch :: acc) r2
      else parseJStrF fu (c :: acc) r

/-- The string-literal body parser with its standard fuel. -/
def parseJStr (cs : List Char) : Option (String × List Char) :=
  parseJStrF (cs.length + 1) [] cs

mutual

/-- Parse one JSON value (fuel-bounded recursion). -/
def parseJv : Nat → List Char → Option (Json × List Char)
  | 0, _ => none
  | fu + 1, cs =>
    match skipWs cs with
    | [] => none
    | c :: r =>
      if c = 'n' then
        match r with
        | 'u' :: 'l' :: 'l' :: r2 => some (.null, r2)
        | _ => none
      else if c = 't' then
        match r with
        | 'r' :: 'u' :: 'e' :: r2 => some (.bool true, r2)
        | _ => none
      else if c = 'f' then
        match r with
        | 'a' :: 'l' :: 's' :: 'e' :: r2 => some (.bool false, r2)
        | _ => none
      else if c = '"' then
        match parseJStr r with
        | some (s, r2) => some (.str s, r2)
        | none => none
      else if c = '[' then
        match skipWs r with
        | [] => none
        | c2 :: r2 =>
          if c2 = ']' then some (.arr [], r2)
          else
            match parseJItems fu (c2 :: r2) with
            | some (vs, r3) => some (.arr vs, r3)
            | none => none
      else if c = '{' then
        match skipWs r with
        | [] => none
        | c2 :: r2 =>
          if c2 = '}' then some (.obj [], r2)
          else
            match parseJMembs fu (c2 :: r2) with
            | some (ms, r3) => some (.obj ms, r3)
            | none => none
      else if c = '-' || jdigit c then
        match parseJInt (c :: r) with
        | some (i, r2) => some (.num i, r2)
        | none => none
      else none

/-- Parse one-or-more comma-separated array elements up to the closing `]`. -/
def parseJItems : Nat → List Char → Option (List Json × List Char)
  | 0, _ => none
  | fu + 1, cs =>
    match parseJv fu cs with
    | none => none
    | some (v, r) =>
      match skipWs r with
      | [] => none
      | c :: r2 =>
        if c = ',' then
          match parseJItems fu (skipWs r2) with
          | some (vs, r3) => some (v :: vs, r3)
          | none => none
        else if c = ']' then some ([v], r2)
        else none

/-- Parse one-or-more comma-separated object members up to the closing `}`. -/
def parseJMembs : Nat → List Char → Option (List (String × Json) × List Char)
  | 0, _ => none
  | fu + 1, cs =>
    match skipWs cs with
    | [] => none
    | c :: r =>
      if c = '"' then
        match parseJStr r with
        | none => none
        | some (k, r1) =>
          match skipWs r1 with
          | [] => none
          | c2 :: r2 =>
            if c2 = ':' then
              match parseJv fu (skipWs r2) with
              | none => none
              | some (v, r3) =>
                match skipWs r3 with
                | [] => none
                | c3 :: r4 =>
                  if c3 = ',' then
                    match parseJMembs fu (skipWs r4) with
                    | some (ms, r5) => some ((k, v) :: ms, r5)
                    | none => none
                  else if c3 = '}' then some ([(k, v)], r4)
                  else none
            else none
      else none

end

/-- The model of `json.loads`: parse one value and require only whitespace
after it.  The fuel `3 * length + 1` is ample (proved below for every
serialised value). -/
def Json.loads (s : String) : Option Json :=
  match parseJv (3 * s.data.length + 1) s.data with
  | some (j, r) => if skipWs r = [] then some j else none
  | none => none

/-! ### Round trip of the JSON codec: digit and whitespace lemmas -/

theorem skipWs_not (c : Char) (r : List Char) (h : jws c = false) :
    skipWs (c :: r) = c :: r := by
  simp [skipWs, h]

theorem skipWs_space (r : List Char) : skipWs (' ' :: r) = skipWs r := by
  simp [skipWs, jws]

/-- A list whose head cannot extend a digit run (empty, or headed by a
non-digit).  Every delimiter a serialised value is followed by qualifies. -/
def digitStop : List Char → Bool
  | [] => true
  | c :: _ => !jdigit c

theorem digCh_val (k : Nat) (h : k < 10) : (digCh k).toNat = 48 + k := by
  interval_cases k <;> decide

theorem digCh_digit (k : Nat) (h : k < 10) : jdigit (digCh k) = true := by
  interval_cases k <;> decide

theorem natChars_all_digit (n : Nat) : ∀ c ∈ natChars n, jdigit c = true := by
  induction n using Nat.strongRecOn with
  | _ n ih =>
    rw [natChars]
    by_cases h : n < 10
    · simpa [h] using digCh_digit (n % 10 % 10) (by omega) ▸ digCh_digit n (by omega)
    · simp only [if_neg h]
      intro c hc
      rcases List.mem_append.mp hc with h1 | h1
      · exact ih (n / 10) (by omega) c h1
      · rcases List.mem_singleton.mp h1 with rfl
        exact digCh_digit (n % 10) (by omega)

theorem natChars_ne_nil (n : Nat) : natChars n ≠ [] := by
  rw [natChars]
  by_cases h : n < 10 <;> simp [h]

theorem grabDigits_none (cs : List Char) (h : digitStop cs = true) :
    grabDigits cs = ([], cs) := by
  match cs with
  | [] => rfl
  | c :: r =>
    simp only [digitStop, Bool.not_eq_true'] at h
    simp [grabDigits, h]

theorem grabDigits_run (ds : List Char) (hds : ∀ c ∈ ds, jdigit c = true)
    (rest : List Char) (hstop : grabDigits rest = ([], rest)) :
    grabDigits (ds ++ rest) = (ds, rest) := by
  induction ds with
  | nil => simpa using hstop
  | cons c t ih =>
    have hc : jdigit c = true := hds c (by simp)
    have ht := ih (fun x hx => hds x (by simp [hx]))
    simp [grabDigits, hc, ht]

theorem digitsVal_natChars (n : Nat) : digitsVal (natChars n) = n := by
  induction n using Nat.strongRecOn with
  | _ n ih =>
    rw [natChars]
    by_cases h : n < 10
    · rw [if_pos h]
      simp [digitsVal, digCh_val n h]
    · simp only [if_neg h, digitsVal, List.foldl_append, List.foldl_cons, List.foldl_nil]
      have := ih (n / 10) (by omega)
      simp only [digitsVal] at this
      rw [this, digCh_val (n % 10) (by omega)]
      omega

theorem natChars_head (n : Nat) : ∃ c t, natChars n = c :: t ∧ jdigit c = true := by
  match h : natChars n with
  | [] => exact absurd h (natChars_ne_nil n)
  | c :: t => exact ⟨c, t, rfl, natChars_all_digit n c (h ▸ List.mem_cons_self ..)⟩

theorem jdigit_ne (c x : Char) (h : jdigit c = true) (hx : jdigit x = false) : c ≠ x := by
  intro h'
  rw [h'] at h
  rw [h] at hx
  cases hx

theorem parseJInt_intChars (i : Int) (rest : List Char) (h : digitStop rest = true) :
    parseJInt (intChars i ++ rest) = some (i, rest) := by
  have hgrab := grabDigits_run (natChars i.natAbs) (natChars_all_digit _) rest
    (grabDigits_none rest h)
  obtain ⟨c, t, hc, hcd⟩ := natChars_head i.natAbs
  have hv : digitsVal (c :: t) = i.natAbs := by
    rw [← hc]; exact digitsVal_natChars i.natAbs
  rw [hc, List.cons_append] at hgrab
  by_cases hneg : i < 0
  · have harg : intChars i ++ rest = '-' :: (c :: (t ++ rest)) := by
      simp [intChars, hneg, hc]
    rw [harg]
    simp only [parseJInt, List.head?_cons, List.tail_cons]
    simp [hgrab, hv]
    rw [abs_of_neg hneg]
    ring
  · have hcm : c ≠ '-' := jdigit_ne c '-' hcd (by decide)
    have harg : intChars i ++ rest = c :: (t ++ rest) := by
      simp [intChars, hneg, hc]
    rw [harg]
    simp only [parseJInt, List.head?_cons]
    simp [hcm, hgrab, hv]
    omega

/-! ### Round trip of the JSON codec: string escapes -/

theorem hexVal_hexDig (k : Nat) (h : k < 16) : hexVal (hexDig k) = some k := by
  interval_cases k <;> decide

theorem hexQuad_hex4 (n : Nat) (h : n < 65536) :
    hexQuad (hexDig (n / 4096 % 16)) (hexDig (n / 256 % 16))
      (hexDig (n / 16 % 16)) (hexDig (n % 16)) = some n := by
  rw [hexQuad, hexVal_hexDig _ (Nat.mod_lt _ (by omega)),
    hexVal_hexDig _ (Nat.mod_lt _ (by omega)), hexVal_hexDig _ (Nat.mod_lt _ (by omega)),
    hexVal_hexDig _ (Nat.mod_lt _ (by omega))]
  simp only [Option.some.injEq]
  omega

theorem char_toNat_lt (c : Char) : c.toNat < 1114112 := by
  have h := c.valid
  simp only [Char.toNat]
  rcases h with h | h <;> omega

theorem char_no_surrogate (c : Char) : ¬(55296 ≤ c.toNat ∧ c.toNat ≤ 57343) := by
  have h := c.valid
  simp only [Char.toNat]
  rcases h with h | h <;> omega

/-- Evaluation of `uEsc` on a serialised surrogate pair. -/
theorem uEsc_pair (n m : Nat) (hn : n < 65536) (hm : m < 65536)
    (hhi : 55296 ≤ n ∧ n ≤ 56319) (hlo : 56320 ≤ m ∧ m ≤ 57343) (rest : List Char) :
    uEsc (hex4Chars n ++ ('\\' :: 'u' :: (hex4Chars m ++ rest)))
      = some (Char.ofNat (65536 + (n - 55296) * 1024 + (m - 56320)), rest) := by
  have hq := hexQuad_hex4 n hn
  have hq2 := hexQuad_hex4 m hm
  simp [uEsc, hex4Chars, hq, hq2, hhi.1, hhi.2, hlo.1, hlo.2]

/-- One `parseJStrF` step on a `\u` escape defers to `uEsc`. -/
theorem parseJStrF_u (fu : Nat) (acc r1 : List Char) :
    parseJStrF (fu + 1) acc ('\\' :: 'u' :: r1)
      = match uEsc r1 with
        | none => none
        | some (ch, r3) => parseJStrF fu (ch :: acc) r3 := by
  simp [parseJStrF]

/-- One `parseJStrF` step at successor fuel consumes one escaped character. -/
theorem parseJStrF_escChar (fu : Nat) (c : Char) (acc rest : List Char) :
    parseJStrF (fu + 1) acc (escChar c ++ rest) = parseJStrF fu (c :: acc) rest := by
  by_cases h1 : c = '"'
  · subst h1; simp [escChar, parseJStrF, escRev]
  by_cases h2 : c = '\\'
  · subst h2; simp [escChar, parseJStrF, escRev]
  by_cases h3 : c = '\n'
  · subst h3; simp [escChar, parseJStrF, escRev]
  by_cases h4 : c = '\r'
  · subst h4; simp [escChar, parseJStrF, escRev]
  by_cases h5 : c = '\t'
  · subst h5; simp [escChar, parseJStrF, escRev]
  by_cases h6 : c.toNat = 8
  · have harg : escChar c ++ rest = '\\' :: 'b' :: rest := by
      simp [escChar, h1, h2, h3, h4, h5, h6]
    have hc : Char.ofNat 8 = c := by rw [← h6, Char.ofNat_toNat]
    rw [harg, ← hc]
    simp [parseJStrF, escRev]
  by_cases h7 : c.toNat = 12
  · have harg : escChar c ++ rest = '\\' :: 'f' :: rest := by
      simp [escChar, h1, h2, h3, h4, h5, h6, h7]
    have hc : Char.ofNat 12 = c := by rw [← h7, Char.ofNat_toNat]
    rw [harg, ← hc]
    simp [parseJStrF, escRev]
  by_cases h8 : 32 ≤ c.toNat ∧ c.toNat ≤ 126
  · have harg : escChar c ++ rest = c :: rest := by
      simp [escChar, h1, h2, h3, h4, h5, h6, h7, h8]
    rw [harg]
    simp [parseJStrF, h1, h2]
  by_cases h9 : c.toNat < 65536
  · have harg : escChar c ++ rest
        = '\\' :: 'u' :: (hex4Chars c.toNat ++ rest) := by
      simp [escChar, h1, h2, h3, h4, h5, h6, h7, h8, h9]
    have hns := char_no_surrogate c
    have hq := hexQuad_hex4 c.toNat h9
    have hnot1 : ¬(55296 ≤ c.toNat ∧ c.toNat ≤ 56319) := by omega
    have hnot2 : ¬(56320 ≤ c.toNat ∧ c.toNat ≤ 57343) := by omega
    rw [harg]
    simp [parseJStrF, uEsc, hex4Chars, hq, hnot1, hnot2, Char.ofNat_toNat]
  · have hlt := char_toNat_lt c
    have hmod := Nat.mod_lt (c.toNat - 65536) (show 0 < 1024 by omega)
    have hu := uEsc_pair (55296 + (c.toNat - 65536) / 1024) (56320 + (c.toNat - 65536) % 1024)
      (by omega) (by omega) (by omega) (by omega) rest
    have harith : 65536 + (55296 + (c.toNat - 65536) / 1024 - 55296) * 1024
        + (56320 + (c.toNat - 65536) % 1024 - 56320) = c.toNat := by omega
    rw [harith, Char.ofNat_toNat] at hu
    have harg : escChar c ++ rest
        = '\\' :: 'u' :: (hex4Chars (55296 + (c.toNat - 65536) / 1024)
            ++ ('\\' :: 'u' :: (hex4Chars (56320 + (c.toNat - 65536) % 1024) ++ rest))) := by
      simp [escChar, h1, h2, h3, h4, h5, h6, h7, h8, h9]
    rw [harg, parseJStrF_u, hu]

/-- Parsing an escaped run stops exactly at the closing quote and returns the
source characters (with enough fuel). -/
theorem parseJStrF_body (cs : List Char) : ∀ (fu : Nat) (acc rest : List Char),
    cs.length < fu →
    parseJStrF fu acc (cs.flatMap escChar ++ '"' :: rest)
      = some (⟨acc.reverse ++ cs⟩, rest) := by
  induction cs with
  | nil =>
    intro fu acc rest hfu
    match fu, hfu with
    | fu + 1, _ => simp [parseJStrF]
  | cons c t ih =>
    intro fu acc rest hfu
    match fu, hfu with
    | fu + 1, hfu =>
      rw [List.flatMap_cons, List.append_assoc, parseJStrF_escChar,
        ih fu (c :: acc) rest (by simpa using Nat.lt_of_succ_lt_succ hfu)]
      simp

/-- Every escape sequence is at least one character long. -/
theorem escChar_len_pos (c : Char) : 1 ≤ (escChar c).length := by
  rw [escChar]
  repeat' split
  all_goals simp [hex4Chars]

theorem strBody_len (cs : List Char) : cs.length ≤ (cs.flatMap escChar).length := by
  induction cs with
  | nil => simp
  | cons c t ih =>
    rw [List.flatMap_cons, List.length_append, List.length_cons]
    have := escChar_len_pos c
    omega

/-- Round trip of a whole string-literal body at the standard fuel. -/
theorem parseJStr_strLit (s : String) (rest : List Char) :
    parseJStr (strBody s ++ '"' :: rest) = some (s, rest) := by
  obtain ⟨cs⟩ := s
  have hbody : strBody ⟨cs⟩ = cs.flatMap escChar := rfl
  have hlen := strBody_len cs
  rw [parseJStr, hbody]
  rw [parseJStrF_body cs _ [] rest (by rw [List.length_append, List.length_cons]; omega)]
  simp

/-! ### Round trip of the JSON codec: whole values -/

mutual

/-- Fuel sufficient for `parseJv` to parse a serialised value. -/
def fuelV : Json → Nat
  | .arr es => 1 + fuelE es
  | .obj ms => 1 + fuelM ms
  | _ => 1

/-- Fuel sufficient for `parseJItems` on a serialised element list. -/
def fuelE : List Json → Nat
  | [] => 1
  | v :: vs => 1 + fuelV v + fuelE vs

/-- Fuel sufficient for `parseJMembs` on a serialised member list. -/
def fuelM : List (String × Json) → Nat
  | [] => 1
  | m :: ms => 1 + fuelV m.2 + fuelM ms

end

theorem intChars_head (i : Int) :
    ∃ c t, intChars i = c :: t ∧ (c = '-' ∨ jdigit c = true) := by
  by_cases hneg : i < 0
  · exact ⟨'-', natChars i.natAbs, by simp [intChars, hneg], Or.inl rfl⟩
  · obtain ⟨c, t, hc, hd⟩ := natChars_head i.natAbs
    exact ⟨c, t, by simp [intChars, hneg, hc], Or.inr hd⟩

/-- A serialised number's head character is no keyword, bracket, quote,
whitespace or closer. -/
theorem numHead_facts (c : Char) (h : c = '-' ∨ jdigit c = true) :
    jws c = false ∧ c ≠ 'n' ∧ c ≠ 't' ∧ c ≠ 'f' ∧ c ≠ '"' ∧ c ≠ '[' ∧ c ≠ '{'
      ∧ c ≠ ']' ∧ c ≠ '}' ∧ (c = '-' || jdigit c) = true := by
  rcases h with rfl | hd
  · exact ⟨by decide, by decide, by decide, by decide, by decide, by decide, by decide,
      by decide, by decide, by decide⟩
  · have hws : jws c = false := by
      simp only [jws, Bool.or_eq_false_iff, beq_eq_false_iff_ne]
      have h1 := jdigit_ne c ' ' hd (by decide)
      have h2 := jdigit_ne c '\t' hd (by decide)
      have h3 := jdigit_ne c '\n' hd (by decide)
      have h4 := jdigit_ne c '\r' hd (by decide)
      exact ⟨⟨⟨h1, h2⟩, h3⟩, h4⟩
    exact ⟨hws, jdigit_ne c 'n' hd (by decide), jdigit_ne c 't' hd (by decide),
      jdigit_ne c 'f' hd (by decide), jdigit_ne c '"' hd (by decide),
      jdigit_ne c '[' hd (by decide), jdigit_ne c '{' hd (by decide),
      jdigit_ne c ']' hd (by decide), jdigit_ne c '}' hd (by decide),
      by simp [hd]⟩

/-- Every serialised value starts with a non-whitespace character that closes
neither an array nor an object. -/
theorem dumpV_head (j : Json) :
    ∃ c t, dumpV j = c :: t ∧ jws c = false ∧ c ≠ ']' ∧ c ≠ '}' := by
  cases j with
  | null =>
    refine ⟨'n', _, rfl, ?_, ?_, ?_⟩ <;> decide
  | bool b =>
    cases b
    case false => refine ⟨'f', _, rfl, ?_, ?_, ?_⟩ <;> decide
    case true => refine ⟨'t', _, rfl, ?_, ?_, ?_⟩ <;> decide
  | num i =>
    obtain ⟨c, t, hc, hd⟩ := intChars_head i
    obtain ⟨hws, _, _, _, _, _, _, hbr, hbc, _⟩ := numHead_facts c hd
    exact ⟨c, t, by simp [dumpV, hc], hws, hbr, hbc⟩
  | str s =>
    exact ⟨'"', strBody s ++ ['"'], by simp [dumpV, strLit], by decide, by decide, by decide⟩
  | arr es =>
    cases es with
    | nil => exact ⟨'[', [']'], by simp [dumpV], by decide, by decide, by decide⟩
    | cons v vs =>
      exact ⟨'[', dumpV v ++ dumpISep vs ++ [']'], by simp [dumpV], by decide, by decide,
        by decide⟩
  | obj ms =>
    cases ms with
    | nil => exact ⟨'{', ['}'], by simp [dumpV], by decide, by decide, by decide⟩
    | cons m ms =>
      exact ⟨'{', dumpMemb m ++ dumpMSep ms ++ ['}'], by simp [dumpV], by decide, by decide,
        by decide⟩

/-- `skipWs` is the identity on serialised output. -/
theorem skipWs_dumpV (j : Json) (x : List Char) :
    skipWs (dumpV j ++ x) = dumpV j ++ x := by
  obtain ⟨c, t, hc, hws, _, _⟩ := dumpV_head j
  rw [hc, List.cons_append, skipWs_not _ _ hws]

theorem digitStop_cons (c : Char) (x : List Char) (h : jdigit c = false) :
    digitStop (c :: x) = true := by
  simp [digitStop, h]

theorem digitStop_dumpMSep (ms : List (String × Json)) (rest : List Char) :
    digitStop (dumpMSep ms ++ '}' :: rest) = true := by
  cases ms with
  | nil => simp [dumpMSep]; exact digitStop_cons _ _ (by decide)
  | cons m ms => simp [dumpMSep]; exact digitStop_cons _ _ (by decide)

theorem digitStop_dumpISep (vs : List Json) (rest : List Char) :
    digitStop (dumpISep vs ++ ']' :: rest) = true := by
  cases vs with
  | nil => simp [dumpISep]; exact digitStop_cons _ _ (by decide)
  | cons v vs => simp [dumpISep]; exact digitStop_cons _ _ (by decide)

mutual

/-- Parsing a serialised value recovers it (with enough fuel, before a
remainder that cannot extend a number). -/
theorem rtV : ∀ (j : Json) (fu : Nat) (rest : List Char),
    fuelV j ≤ fu → digitStop rest = true →
    parseJv fu (dumpV j ++ rest) = some (j, rest)
  | .null, fu, rest, hfu, _ => by
    match fu, hfu with
    | 0, hfu => simp [fuelV] at hfu
    | fu + 1, _ =>
      have harg : dumpV .null ++ rest = 'n' :: 'u' :: 'l' :: 'l' :: rest := by simp [dumpV]
      rw [harg]
      simp [parseJv, skipWs, jws]
  | .bool true, fu, rest, hfu, _ => by
    match fu, hfu with
    | 0, hfu => simp [fuelV] at hfu
    | fu + 1, _ =>
      have harg : dumpV (.bool true) ++ rest = 't' :: 'r' :: 'u' :: 'e' :: rest := by
        simp [dumpV]
      rw [harg]
      simp [parseJv, skipWs, jws]
  | .bool false, fu, rest, hfu, _ => by
    match fu, hfu with
    | 0, hfu => simp [fuelV] at hfu
    | fu + 1, _ =>
      have harg : dumpV (.bool false) ++ rest = 'f' :: 'a' :: 'l' :: 's' :: 'e' :: rest := by
        simp [dumpV]
      rw [harg]
      simp [parseJv, skipWs, jws]
  | .num i, fu, rest, hfu, hstop => by
    match fu, hfu with
    | 0, hfu => simp [fuelV] at hfu
    | fu + 1, _ =>
      obtain ⟨c, t, hc, hd⟩ := intChars_head i
      obtain ⟨hws, hn, ht, hf, hq, hbk, hbc, _, _, hnum⟩ := numHead_facts c hd
      have hi := parseJInt_intChars i rest hstop
      have hback : intChars i ++ rest = c :: (t ++ rest) := by simp [hc]
      rw [hback] at hi
      have harg : dumpV (.num i) ++ rest = c :: (t ++ rest) := by simp [dumpV, hc]
      have hskip : skipWs (c :: (t ++ rest)) = c :: (t ++ rest) := skipWs_not _ _ hws
      rw [harg]
      simp [parseJv, hskip, hn, ht, hf, hq, hbk, hbc, hnum, hi]
  | .str s, fu, rest, hfu, _ => by
    match fu, hfu with
    | 0, hfu => simp [fuelV] at hfu
    | fu + 1, _ =>
      have harg : dumpV (.str s) ++ rest = '"' :: (strBody s ++ ('"' :: rest)) := by
        simp [dumpV, strLit]
      rw [harg]
      simp [parseJv, skipWs, jws, parseJStr_strLit]
  | .arr [], fu, rest, hfu, _ => by
    match fu, hfu with
    | 0, hfu => simp [fuelV] at hfu
    | fu + 1, _ =>
      have harg : dumpV (.arr []) ++ rest = '[' :: (']' :: rest) := by simp [dumpV]
      rw [harg]
      simp [parseJv, skipWs, jws]
  | .arr (v :: vs), fu, rest, hfu, _ => by
    match fu, hfu with
    | 0, hfu => simp [fuelV] at hfu
    | fu + 1, hfu =>
      have hfe : fuelE (v :: vs) ≤ fu := by
        have h1 : fuelV (.arr (v :: vs)) = 1 + fuelE (v :: vs) := by simp [fuelV]
        omega
      obtain ⟨c2, t2, hc2, hws2, hbr2, _⟩ := dumpV_head v
      have hitems := rtE v vs fu rest hfe
      rw [hc2, List.cons_append] at hitems
      have harg : dumpV (.arr (v :: vs)) ++ rest
          = '[' :: (c2 :: (t2 ++ (dumpISep vs ++ (']' :: rest)))) := by
        simp [dumpV, hc2]
      have hskip : skipWs (c2 :: (t2 ++ (dumpISep vs ++ (']' :: rest))))
          = c2 :: (t2 ++ (dumpISep vs ++ (']' :: rest))) := skipWs_not _ _ hws2
      have hskipOuter : skipWs ('[' :: (c2 :: (t2 ++ (dumpISep vs ++ (']' :: rest)))))
          = '[' :: (c2 :: (t2 ++ (dumpISep vs ++ (']' :: rest)))) := skipWs_not _ _ (by decide)
      rw [harg]
      simp [parseJv, hskipOuter, hskip, hbr2, hitems]
  | .obj [], fu, rest, hfu, _ => by
    match fu, hfu with
    | 0, hfu => simp [fuelV] at hfu
    | fu + 1, _ =>
      have harg : dumpV (.obj []) ++ rest = '{' :: ('}' :: rest) := by simp [dumpV]
      rw [harg]
      simp [parseJv, skipWs, jws]
  | .obj (m :: ms), fu, rest, hfu, _ => by
    match fu, hfu with
    | 0, hfu => simp [fuelV] at hfu
    | fu + 1, hfu =>
      have hfm : fuelM (m :: ms) ≤ fu := by
        have h1 : fuelV (.obj (m :: ms)) = 1 + fuelM (m :: ms) := by simp [fuelV]
        omega
      have hmembs := rtM m ms fu rest hfm
      have hexp : dumpMemb m ++ (dumpMSep ms ++ ('}' :: rest))
          = '"' :: ((strBody m.1 ++ ('"' :: (':' :: ' ' :: (dumpV m.2
              ++ (dumpMSep ms ++ ('}' :: rest))))))) := by
        obtain ⟨k, v⟩ := m
        simp [dumpMemb, strLit]
      rw [hexp] at hmembs
      have harg : dumpV (.obj (m :: ms)) ++ rest
          = '{' :: ('"' :: ((strBody m.1 ++ ('"' :: (':' :: ' ' :: (dumpV m.2
              ++ (dumpMSep ms ++ ('}' :: rest)))))))) := by
        obtain ⟨k, v⟩ := m
        simp [dumpV, dumpMemb, strLit]
      rw [harg]
      simp [parseJv, skipWs, jws, hmembs]
termination_by j _ _ _ _ => sizeOf j

/-- Parsing a serialised, nonempty element list up to `]` recovers it. -/
theorem rtE : ∀ (v : Json) (vs : List Json) (fu : Nat) (rest : List Char),
    fuelE (v :: vs) ≤ fu →
    parseJItems fu (dumpV v ++ (dumpISep vs ++ (']' :: rest))) = some (v :: vs, rest)
  | v, [], fu, rest, hfu => by
    match fu, hfu with
    | 0, hfu => simp [fuelE] at hfu
    | fu + 1, hfu =>
      have hfv : fuelV v ≤ fu := by
        have h1 : fuelE (v :: []) = 1 + fuelV v + fuelE ([] : List Json) := by simp [fuelE]
        omega
      have hv := rtV v fu (']' :: rest) hfv (digitStop_cons _ _ (by decide))
      have harg : dumpV v ++ (dumpISep ([] : List Json) ++ (']' :: rest))
          = dumpV v ++ (']' :: rest) := by simp [dumpISep]
      rw [harg]
      simp [parseJItems, hv, skipWs, jws]
  | v, x :: xs, fu, rest, hfu => by
    match fu, hfu with
    | 0, hfu => simp [fuelE] at hfu
    | fu + 1, hfu =>
      have h1 : fuelE (v :: x :: xs) = 1 + fuelV v + fuelE (x :: xs) := by simp [fuelE]
      have hfv : fuelV v ≤ fu := by omega
      have hfx : fuelE (x :: xs) ≤ fu := by omega
      have hv := rtV v fu (',' :: ' ' :: (dumpV x ++ (dumpISep xs ++ (']' :: rest)))) hfv
        (digitStop_cons _ _ (by decide))
      have hx := rtE x xs fu rest hfx
      have hsd : skipWs (dumpV x ++ (dumpISep xs ++ (']' :: rest)))
          = dumpV x ++ (dumpISep xs ++ (']' :: rest)) := skipWs_dumpV x _
      have harg : dumpV v ++ (dumpISep (x :: xs) ++ (']' :: rest))
          = dumpV v ++ (',' :: ' ' :: (dumpV x ++ (dumpISep xs ++ (']' :: rest)))) := by
        simp [dumpISep]
      rw [harg]
      simp [parseJItems, hv, skipWs, jws, hsd, hx]
termination_by v vs _ _ _ => sizeOf v + sizeOf vs

/-- Parsing a serialised, nonempty member list up to `}` recovers it. -/
theorem rtM : ∀ (m : String × Json) (ms : List (String × Json)) (fu : Nat) (rest : List Char),
    fuelM (m :: ms) ≤ fu →
    parseJMembs fu (dumpMemb m ++ (dumpMSep ms ++ ('}' :: rest))) = some (m :: ms, rest)
  | (k, v), [], fu, rest, hfu => by
    match fu, hfu with
    | 0, hfu => simp [fuelM] at hfu
    | fu + 1, hfu =>
      have hfv : fuelV v ≤ fu := by
        have h1 : fuelM ((k, v) :: []) = 1 + fuelV v + fuelM ([] : List (String × Json)) := by
          simp [fuelM]
        omega
      have hv := rtV v fu ('}' :: rest) hfv (digitStop_cons _ _ (by decide))
      have hsd : skipWs (dumpV v ++ ('}' :: rest)) = dumpV v ++ ('}' :: rest) :=
        skipWs_dumpV v _
      have hstr := parseJStr_strLit k (':' :: ' ' :: (dumpV v ++ ('}' :: rest)))
      have harg : dumpMemb (k, v) ++ (dumpMSep ([] : List (String × Json)) ++ ('}' :: rest))
          = '"' :: (strBody k ++ ('"' :: (':' :: ' ' :: (dumpV v ++ ('}' :: rest))))) := by
        simp [dumpMemb, dumpMSep, strLit]
      rw [harg]
      simp [parseJMembs, skipWs, jws, hstr, hsd, hv]
  | (k, v), m2 :: ms2, fu, rest, hfu => by
    match fu, hfu with
    | 0, hfu => simp [fuelM] at hfu
    | fu + 1, hfu =>
      have h1 : fuelM ((k, v) :: m2 :: ms2) = 1 + fuelV v + fuelM (m2 :: ms2) := by
        simp [fuelM]
      have hfv : fuelV v ≤ fu := by omega
      have hfm : fuelM (m2 :: ms2) ≤ fu := by omega
      have hm2 := rtM m2 ms2 fu rest hfm
      have hexp : dumpMemb m2 ++ (dumpMSep ms2 ++ ('}' :: rest))
          = '"' :: (strBody m2.1 ++ ('"' :: (':' :: ' ' :: (dumpV m2.2
              ++ (dumpMSep ms2 ++ ('}' :: rest)))))) := by
        obtain ⟨k2, v2⟩ := m2
        simp [dumpMemb, strLit]
      rw [hexp] at hm2
      have hv := rtV v fu (',' :: ' ' :: ('"' :: (strBody m2.1 ++ ('"' :: (':' :: ' '
          :: (dumpV m2.2 ++ (dumpMSep ms2 ++ ('}' :: rest)))))))) hfv
        (digitStop_cons _ _ (by decide))
      have hstr := parseJStr_strLit k (':' :: ' ' :: (dumpV v ++ (',' :: ' '
          :: ('"' :: (strBody m2.1 ++ ('"' :: (':' :: ' ' :: (dumpV m2.2
              ++ (dumpMSep ms2 ++ ('}' :: rest))))))))))
      have hsd : skipWs (dumpV v ++ (',' :: ' ' :: ('"' :: (strBody m2.1 ++ ('"'
          :: (':' :: ' ' :: (dumpV m2.2 ++ (dumpMSep ms2 ++ ('}' :: rest)))))))))
          = dumpV v ++ (',' :: ' ' :: ('"' :: (strBody m2.1 ++ ('"' :: (':' :: ' '
              :: (dumpV m2.2 ++ (dumpMSep ms2 ++ ('}' :: rest)))))))) :=
        skipWs_dumpV v _
      have harg : dumpMemb (k, v) ++ (dumpMSep (m2 :: ms2) ++ ('}' :: rest))
          = '"' :: (strBody k ++ ('"' :: (':' :: ' ' :: (dumpV v ++ (',' :: ' '
              :: ('"' :: (strBody m2.1 ++ ('"' :: (':' :: ' ' :: (dumpV m2.2
                  ++ (dumpMSep ms2 ++ ('}' :: rest)))))))))))) := by
        obtain ⟨k2, v2⟩ := m2
        simp [dumpMemb, dumpMSep, strLit]
      rw [harg]
      simp [parseJMembs, skipWs, jws, hstr, hsd, hv, hm2]
termination_by m ms _ _ _ => sizeOf m + sizeOf ms

end

theorem intChars_len_pos (i : Int) : 1 ≤ (intChars i).length := by
  have h := natChars_ne_nil i.natAbs
  rw [intChars]
  by_cases hneg : i < 0
  · simp [hneg]
  · simp only [if_neg hneg]
    exact List.length_pos.mpr h

mutual

/-- The standard fuel is ample: three characters per unit suffice. -/
theorem boundV : ∀ (j : Json), fuelV j + 2 ≤ 3 * (dumpV j).length
  | .null => by simp [fuelV, dumpV]
  | .bool b => by cases b <;> simp [fuelV, dumpV]
  | .num i => by
    have h := intChars_len_pos i
    simp only [fuelV, dumpV]
    omega
  | .str s => by
    simp only [fuelV, dumpV, strLit, List.length_cons, List.length_append]
    omega
  | .arr [] => by simp [fuelV, fuelE, dumpV]
  | .arr (v :: vs) => by
    have hE := boundE v vs
    simp only [fuelV, dumpV, List.length_cons, List.length_append]
    omega
  | .obj [] => by simp [fuelV, fuelM, dumpV]
  | .obj (m :: ms) => by
    have hM := boundM m ms
    simp only [fuelV, dumpV, List.length_cons, List.length_append]
    omega
termination_by j => sizeOf j

theorem boundE : ∀ (v : Json) (vs : List Json),
    fuelE (v :: vs) ≤ 3 * ((dumpV v).length + (dumpISep vs).length)
  | v, [] => by
    have hV := boundV v
    simp only [fuelE, dumpISep, List.length_nil]
    omega
  | v, x :: xs => by
    have hV := boundV v
    have hE := boundE x xs
    simp only [fuelE] at hE ⊢
    simp only [dumpISep, List.length_cons, List.length_append]
    omega
termination_by v vs => sizeOf v + sizeOf vs

theorem boundM : ∀ (m : String × Json) (ms : List (String × Json)),
    fuelM (m :: ms) ≤ 3 * ((dumpMemb m).length + (dumpMSep ms).length)
  | (k, v), [] => by
    have hV := boundV v
    simp only [fuelM, dumpMemb, dumpMSep, strLit, List.length_nil, List.length_cons,
      List.length_append]
    omega
  | (k, v), m2 :: ms2 => by
    have hV := boundV v
    have hM := boundM m2 ms2
    simp only [fuelM] at hM ⊢
    simp only [dumpMemb, dumpMSep, strLit, List.length_cons, List.length_append]
    omega
termination_by m ms => sizeOf m + sizeOf ms

end

/-- **Round trip of the modelled `json` codec**: `json.loads` inverts
`json.dumps` on every value. -/
theorem loads_dumps (j : Json) : Json.loads (Json.dumps j) = some j := by
  have hb := boundV j
  have hrt := rtV j (3 * (dumpV j).length + 1) [] (by omega) rfl
  rw [List.append_nil] at hrt
  simp [Json.loads, Json.dumps, hrt, skipWs]

/-! ## The Anthropic request data model

Typed view of the JSON bodies accepted by `POST /v1/messages`
(`src/utils.py` reads them as dicts).  `Option` marks fields the code reads
with `.get`; required fields correspond to `d[k]` accesses. -/

/-- A block of a list-form `system` field (`b["type"]`, `b["text"]`). -/
structure SysBlock where
  type : String
  text : String

/-- The `system` field: a string or a list of blocks. -/
inductive SystemField where
  | str (s : String)
  | blocks (bs : List SysBlock)

/-- An image source: `{type:"base64", media_type, data}` or `{type:"url", url}`. -/
inductive ImageSource where
  | base64 (media_type data : String)
  | urlSrc (url : String)

/-- An element of a list-form `tool_result.content` (`c.get("type")`,
`c.get("text", "")`). -/
structure TrPart where
  type : Option String
  text : Option String

/-- The `content` of a `tool_result` block: a string or a list of parts. -/
inductive TrContent where
  | str (s : String)
  | parts (ps : List TrPart)

/-- One Anthropic content block.  `other` stands for any unrecognised
`type`, which the translators ignore. -/
inductive ContentBlock where
  | text (text : String)
  | image (source : ImageSource)
  | tool_use (id name : String) (input : Json)
  | tool_result (tool_use_id : String) (content : Option TrContent)
  | other (type : String)

/-- A message `content`: a raw string or a list of blocks. -/
inductive MsgContent where
  | str (s : String)
  | blocks (bs : List ContentBlock)

/-- One entry of `messages` (`msg["role"]`, `msg["content"]`). -/
structure Message where
  role : String
  content : MsgContent

/-- The `tool_choice` field (`tc["type"]`, and `tc["name"]` for type `tool`). -/
structure ToolChoice where
  type : String
  name : Option String

/-- One entry of `tools`. -/
structure Tool where
  name : String
  description : Option String
  input_schema : Json

/-- An inbound Anthropic request body. -/
structure AnthropicRequest where
  model : Option String := none
  system : Option SystemField := none
  messages : List Message := []
  tools : Option (List Tool) := none
  tool_choice : Option ToolChoice := none
  max_tokens : Option Nat := none
  temperature : Option Rat := none
  stream : Option Bool := none
  stop_sequences : Option (List String) := none
  top_p : Option Rat := none
  presence_penalty : Option Rat := none
  frequency_penalty : Option Rat := none

/-! ## The Chat-Completions request model (the translator's output) -/

/-- `function` of a `tool_calls[]` entry. -/
structure ToolCallFunction where
  name : String
  arguments : String

/-- One `tool_calls[]` entry (`type` is always `"function"`). -/
structure ToolCall where
  id : String
  type : String
  function : ToolCallFunction

/-- A multimodal user-content part. -/
inductive ChatPart where
  | text (text : String)
  | image_url (url : String)

/-- A Chat-Completions message `content`: raw string or part list. -/
inductive ChatContent where
  | str (s : String)
  | parts (ps : List ChatPart)

/-- One outgoing Chat-Completions message.  `none` fields are keys the code
does not set on that message. -/
structure ChatMessage where
  role : String
  content : Option ChatContent := none
  tool_call_id : Option String := none
  tool_calls : Option (List ToolCall) := none

/-- One outgoing tool: `{type:"function", function:{name, description,
parameters}}` (the constant `type` is not modelled). -/
structure ChatTool where
  name : String
  description : String
  parameters : Json

/-- The outgoing `tool_choice`: a mode string (`"auto"`/`"required"`) or
`{type:"function", function:{name}}`. -/
inductive ChatToolChoice where
  | mode (s : String)
  | function (name : String)

/-- The translated Chat-Completions body. -/
structure ChatBody where
  model : Option String
  messages : List ChatMessage
  stream : Bool
  max_tokens : Nat
  temperature : Rat
  continue_final_message : Option Bool
  add_generation_prompt : Option Bool
  stop : Option (List String)
  top_p : Option Rat
  presence_penalty : Option Rat
  frequency_penalty : Option Rat
  tools : Option (List ChatTool)
  tool_choice : Option ChatToolChoice

/-! ## The request translator: `transform_request_body` (src/utils.py) -/

/-- `convert_image_source`: Anthropic base64 source to an OpenAI data URI;
URL sources pass through. -/
def convert_image_source : ImageSource → String
  | .base64 mt d => "data:" ++ mt ++ ";base64," ++ d
  | .urlSrc u => u

/-- The `"\n".join(...)` over the text blocks of a list-form `system`. -/
def joinSystemText (bs : List SysBlock) : String :=
  String.intercalate "\n" (bs.filterMap fun b => if b.type = "text" then some b.text else none)

/-- Flatten a `tool_result.content` to a string: strings pass through, part
lists join their text parts with single spaces, anything else is empty. -/
def toolResultText : Option TrContent → String
  | some (.str s) => s
  | some (.parts ps) =>
    String.intercalate " "
      (ps.filterMap fun p => if p.type = some "text" then some (p.text.getD "") else none)
  | none => ""

/-- Python's `tool_content or "Success"`. -/
def orSuccess (s : String) : String := if s = "" then "Success" else s

/-- `b.get("type") == "tool_result"`, as used by the `any(...)` dispatch. -/
def isToolResult : ContentBlock → Bool
  | .tool_result _ _ => true
  | _ => false

/-- A standard user block as a Chat-Completions multimodal part. -/
def userPart : ContentBlock → Option ChatPart
  | .text t => some (.text t)
  | .image src => some (.image_url (convert_image_source src))
  | _ => none

/-- The text of an assistant `text` block. -/
def asstText : ContentBlock → Option String
  | .text t => some t
  | _ => none

/-- An assistant `tool_use` block as a `tool_calls[]` entry: the `input` is
JSON-stringified into `function.arguments`. -/
def asstToolCall : ContentBlock → Option ToolCall
  | .tool_use i n inp => some ⟨i, "function", ⟨n, Json.dumps inp⟩⟩
  | _ => none

/-- A `tool_result` block as a role-`tool` message carrying `tool_call_id`. -/
def toolResultMsg : ContentBlock → Option ChatMessage
  | .tool_result tid c =>
    some ⟨"tool", some (.str (orSuccess (toolResultText c))), some tid, none⟩
  | _ => none

/-- The per-message body of the translation loop of `transform_request_body`
(each `messages` entry contributes its appended messages independently). -/
def translateMsgChat (m : Message) : List ChatMessage :=
  if m.role = "user" then
    match m.content with
    | .str s => [⟨"user", some (.str s), none, none⟩]
    | .blocks bs =>
      if bs.any isToolResult then bs.filterMap toolResultMsg
      else [⟨"user", some (.parts (bs.filterMap userPart)), none, none⟩]
  else if m.role = "assistant" then
    match m.content with
    | .str s => [⟨"assistant", some (.str s), none, none⟩]
    | .blocks bs =>
      let text_parts := bs.filterMap asstText
      let tool_calls := bs.filterMap asstToolCall
      [⟨"assistant",
        if text_parts.isEmpty then none
        else some (.str (String.intercalate "\n" text_parts)),
        none,
        if tool_calls.isEmpty then none else some tool_calls⟩]
  else []

/-- The ways `transform_request_body` can raise. -/
inductive TransErr where
  | emptyMessages
  | missingToolChoiceName
deriving DecidableEq

/-- `str(e)` of the corresponding Python exception. -/
def TransErr.message : TransErr → String
  | .emptyMessages => "list index out of range"
  | .missingToolChoiceName => "'name'"

/-- `transform_request_body`: Anthropic `v1/messages` JSON to OpenAI
`v1/chat/completions` JSON.  Raises (returns `.error`) exactly where the
Python raises: indexing `openai_messages[-1]` on an empty list, and
`tc["name"]` on a name-less `tool` choice. -/
def transform_request_body (b : AnthropicRequest) : Except TransErr ChatBody :=
  let sysMsgs : List ChatMessage :=
    match b.system with
    | none => []
    | some (.str s) => [⟨"system", some (.str s), none, none⟩]
    | some (.blocks bs) => [⟨"system", some (.str (joinSystemText bs)), none, none⟩]
  let msgs := sysMsgs ++ b.messages.flatMap translateMsgChat
  let tools : List ChatTool :=
    match b.tools with
    | none => []
    | some ts => ts.map fun t => ⟨t.name, t.description.getD "", t.input_schema⟩
  match msgs.getLast? with
  | none => .error .emptyMessages
  | some last =>
    let tcRes : Except TransErr (Option ChatToolChoice) :=
      if tools.isEmpty then .ok none
      else
        match b.tool_choice with
        | none => .ok none
        | some tc =>
          if tc.type = "any" then .ok (some (.mode "required"))
          else if tc.type = "auto" then .ok (some (.mode "auto"))
          else if tc.type = "tool" then
            match tc.name with
            | some n => .ok (some (.function n))
            | none => .error .missingToolChoiceName
          else .ok none
    match tcRes with
    | .error e => .error e
    | .ok tcField =>
      .ok {
        model := b.model
        messages := msgs
        stream := b.stream.getD false
        max_tokens := b.max_tokens.getD 4096
        temperature := b.temperature.getD (7 / 10 : Rat)
        continue_final_message := if last.role = "assistant" then some true else none
        add_generation_prompt := if last.role = "assistant" then some false else none
        stop := b.stop_sequences
        top_p := b.top_p
        presence_penalty := b.presence_penalty
        frequency_penalty := b.frequency_penalty
        tools := if tools.isEmpty then none else some tools
        tool_choice := tcField }

/-! ## The unary response translator: `transform_openai_response` -/

/-- `choices[0].message` of an upstream Chat-Completions reply.
`tool_calls = []` stands for an absent, null or empty field (all falsy). -/
structure OAIMessage where
  content : Option String := none
  tool_calls : List ToolCall := []

/-- One upstream `choices[]` entry. -/
structure OAIChoice where
  message : OAIMessage
  finish_reason : Option String := none

/-- An upstream Chat-Completions reply body. -/
structure OAIResponse where
  choices : List OAIChoice
  model : Option String := none
  usage_prompt_tokens : Nat := 0
  usage_completion_tokens : Nat := 0

/-- The ways `transform_openai_response` can raise. -/
inductive RespErr where
  | noChoices
  | badToolArguments
deriving DecidableEq

/-- The translated Anthropic reply.  The freshly minted random
`id = msg_<hex>` is nondeterministic I/O and is not part of the embedding;
`type`, `role` and `stop_sequence` are constants. -/
structure AnthropicResponse where
  content : List ContentBlock
  model : String
  stop_reason : String
  input_tokens : Nat
  output_tokens : Nat

/-- `transform_openai_response`: an upstream Chat-Completions reply to the
Anthropic message shape.  `choices[0]` raises on an empty list;
`json.loads(tc["function"]["arguments"])` raises on unparseable arguments. -/
def transform_openai_response (r : OAIResponse) : Except RespErr AnthropicResponse :=
  match r.choices.head? with
  | none => .error .noChoices
  | some choice =>
    let message := choice.message
    let textBlocks : List ContentBlock :=
      match message.content with
      | some s => if s = "" then [] else [.text s]
      | none => []
    match message.tool_calls.mapM (fun tc =>
        (Json.loads tc.function.arguments).map fun j =>
          ContentBlock.tool_use tc.id tc.function.name j) with
    | none => .error .badToolArguments
    | some toolBlocks =>
      let stop_reason :=
        if choice.finish_reason = some "tool_calls" then "tool_use"
        else if choice.finish_reason = some "length" then "max_tokens"
        else "end_turn"
      .ok {
        content := textBlocks ++ toolBlocks
        model := r.model.getD "unknown"
        stop_reason := stop_reason
        input_tokens := r.usage_prompt_tokens
        output_tokens := r.usage_completion_tokens }

/-! ## The Responses-flavor request translator:
`transform_request_body_v1_responses` -/

/-- A content part of a Responses `message` input item. -/
inductive RespPart where
  | input_text (text : String)
  | input_image (image_url : String)
  | output_text (text : String)

/-- One Responses `input[]` item. -/
inductive RespItem where
  | message (role : String) (content : List RespPart)
  | function_call (call_id name arguments : String)
  | custom_tool_call_output (call_id output : String)

/-- One outgoing Responses tool: flat `{type:"function", name, description,
parameters}` (the constant `type` is not modelled). -/
structure RespTool where
  name : String
  description : String
  parameters : Json

/-- The translated Responses body. -/
structure ResponsesBody where
  model : Option String
  input : List RespItem
  stream : Bool
  max_output_tokens : Nat
  temperature : Rat
  instructions : Option String
  stop : Option (List String)
  top_p : Option Rat
  presence_penalty : Option Rat
  frequency_penalty : Option Rat
  tools : Option (List RespTool)
  tool_choice : Option ChatToolChoice

/-- A standard user block as a Responses content part. -/
def userRespPart : ContentBlock → Option RespPart
  | .text t => some (.input_text t)
  | .image src => some (.input_image (convert_image_source src))
  | _ => none

/-- A `tool_result` block as a standalone `custom_tool_call_output` item. -/
def trOutputItem : ContentBlock → Option RespItem
  | .tool_result tid c => some (.custom_tool_call_output tid (orSuccess (toolResultText c)))
  | _ => none

/-- An assistant `tool_use` block as a top-level `function_call` item. -/
def asstFunctionCall : ContentBlock → Option RespItem
  | .tool_use i n inp => some (.function_call i n (Json.dumps inp))
  | _ => none

/-- An assistant `text` block as an `output_text` part. -/
def asstOutputText : ContentBlock → Option RespPart
  | .text t => some (.output_text t)
  | _ => none

/-- The per-message body of the translation loop of
`transform_request_body_v1_responses`. -/
def translateMsgResponses (m : Message) : List RespItem :=
  if m.role = "user" then
    match m.content with
    | .str s => [.message "user" [.input_text s]]
    | .blocks bs =>
      if bs.any isToolResult then bs.filterMap trOutputItem
      else [.message "user" (bs.filterMap userRespPart)]
  else if m.role = "assistant" then
    match m.content with
    | .str s => [.message "assistant" [.output_text s]]
    | .blocks bs =>
      let fcalls := bs.filterMap asstFunctionCall
      let content_blocks := bs.filterMap asstOutputText
      fcalls ++ (if content_blocks.isEmpty then [] else [.message "assistant" content_blocks])
  else []

/-- `transform_request_body_v1_responses`: Anthropic `v1/messages` JSON to
OpenAI `v1/responses` JSON.  The only reachable raise is `tc["name"]` on a
name-less `tool` choice; there is no last-message check in this variant. -/
def transform_request_body_v1_responses (b : AnthropicRequest) :
    Except TransErr ResponsesBody :=
  let instructions : Option String :=
    match b.system with
    | none => none
    | some (.str s) => some s
    | some (.blocks bs) => some (joinSystemText bs)
  let input_items := b.messages.flatMap translateMsgResponses
  let tools : List RespTool :=
    match b.tools with
    | none => []
    | some ts => ts.map fun t => ⟨t.name, t.description.getD "", t.input_schema⟩
  let tcRes : Except TransErr (Option ChatToolChoice) :=
    if tools.isEmpty then .ok none
    else
      match b.tool_choice with
      | none => .ok none
      | some tc =>
        if tc.type = "any" then .ok (some (.mode "required"))
        else if tc.type = "auto" then .ok (some (.mode "auto"))
        else if tc.type = "tool" then
          match tc.name with
          | some n => .ok (some (.function n))
          | none => .error .missingToolChoiceName
        else .ok none
  match tcRes with
  | .error e => .error e
  | .ok tcField =>
    .ok {
      model := b.model
      input := input_items
      stream := b.stream.getD false
      max_output_tokens := b.max_tokens.getD 4096
      temperature := b.temperature.getD (7 / 10 : Rat)
      instructions :=
        match instructions with
        | some s => if s = "" then none else some s
        | none => none
      stop := b.stop_sequences
      top_p := b.top_p
      presence_penalty := b.presence_penalty
      frequency_penalty := b.frequency_penalty
      tools := if tools.isEmpty then none else some tools
      tool_choice := tcField }

/-! ## The streaming transducers

Both transducers are modelled as functions from the parsed upstream payloads
to the list of emitted Anthropic events, one event per `yield`.  SSE framing
(`event:`/`data:` lines, the blank separators), the `[DONE]` sentinel and
lines whose JSON fails to parse emit nothing and are abstracted away; the
constant parts of the `message_start` payload (the random `msg_<hex>` id,
model `"proxy"`, zeroed usage) and the constant `stop_sequence: null` of
`message_delta` are not modelled.  Event indices are integers, since the
Responses transducer can compute `current_block_index - 1 = -1`. -/

/-- The `content_block` payload of a `content_block_start`. -/
inductive BlockStart where
  | text (text : String)
  | tool_use (id name : String)
deriving DecidableEq

/-- The `delta` payload of a `content_block_delta`. -/
inductive BlockDelta where
  | text_delta (text : String)
  | input_json_delta (fragment : String)
deriving DecidableEq

/-- One outbound Anthropic stream event. -/
inductive AEvent where
  | message_start
  | content_block_start (index : Int) (block : BlockStart)
  | content_block_delta (index : Int) (delta : BlockDelta)
  | content_block_stop (index : Int)
  | message_delta (stop_reason : String) (output_tokens : Nat)
  | message_stop
deriving DecidableEq

/-! ### Chat-Completions SSE → Anthropic SSE: `stream_openai_to_anthropic` -/

/-- `delta.tool_calls[i].function` (`tc.get("function", {})`). -/
structure TCFn where
  name : Option String := none
  arguments : Option String := none

/-- One `delta.tool_calls[]` entry.  `index` is required (`tc["index"]`);
`id` is read with `tc.get("id", "pending")`. -/
structure TCDelta where
  index : Int
  id : Option String := none
  function : Option TCFn := none

/-- `choices[0].delta`.  `tool_calls = []` stands for an absent, null or
empty field (all falsy under `if delta.get("tool_calls"):`). -/
structure ChatDelta where
  content : Option String := none
  tool_calls : List TCDelta := []

/-- One `choices[]` entry of a streamed chunk.  A missing `delta` key makes
`chunk["choices"][0]["delta"]` raise, which the per-chunk handler swallows,
so `delta = none` makes the whole chunk (including its `finish_reason`)
emit nothing. -/
structure ChatChoice where
  delta : Option ChatDelta := none
  finish_reason : Option String := none

/-- One parsed `data:` chunk of the upstream Chat-Completions stream. -/
structure ChatChunk where
  choices : List ChatChoice := []

/-- Python truthiness of `chunk["choices"][0].get("finish_reason")`. -/
def finishTruthy : Option String → Bool
  | some s => s ≠ ""
  | none => false

/-- The streaming stop-reason mapping of `stream_openai_to_anthropic`:
`"tool_use" if reason == "tool_calls" else "end_turn"`. -/
def streamFinishReason (reason : String) : String :=
  if reason = "tool_calls" then "tool_use" else "end_turn"

/-- Process one Chat-Completions chunk: the loop body of
`stream_openai_to_anthropic`.  Returns the updated `current_block_index`
and the events emitted for this chunk, in order: text delta, tool-call
block management and argument delta, then finish handling. -/
def processChunk (idx : Int) (ck : ChatChunk) : Int × List AEvent :=
  match ck.choices.head? with
  | none => (idx, [])
  | some choice =>
    match choice.delta with
    | none => (idx, [])
    | some d =>
      let textEvents : List AEvent :=
        match d.content with
        | some t => if t = "" then [] else [.content_block_delta 0 (.text_delta t)]
        | none => []
      let (idx1, toolEvents) : Int × List AEvent :=
        match d.tool_calls.head? with
        | none => (idx, [])
        | some tc =>
          let target := tc.index + 1
          let (idx2, startEvents) : Int × List AEvent :=
            if target ≠ idx then
              (target,
                [.content_block_stop idx,
                 .content_block_start target
                   (.tool_use (tc.id.getD "pending") ((tc.function.getD {}).name.getD "pending"))])
            else (idx, [])
          let argEvents : List AEvent :=
            match tc.function with
            | some f =>
              match f.arguments with
              | some a => if a = "" then [] else [.content_block_delta idx2 (.input_json_delta a)]
              | none => []
            | none => []
          (idx2, startEvents ++ argEvents)
      let finishEvents : List AEvent :=
        if finishTruthy choice.finish_reason then
          [.content_block_stop idx1,
           .message_delta (streamFinishReason (choice.finish_reason.getD "")) 10]
        else []
      (idx1, textEvents ++ toolEvents ++ finishEvents)

/-- The chunk-folding loop. -/
def chatLoop : Int → List ChatChunk → List AEvent
  | _, [] => []
  | idx, ck :: cks =>
    let (idx1, evs) := processChunk idx ck
    evs ++ chatLoop idx1 cks

/-- `stream_openai_to_anthropic` over the parsed chunks of the upstream
stream: `message_start`, the unconditional index-0 text
`content_block_start`, the translated chunks, then `message_stop`. -/
def stream_openai_to_anthropic (chunks : List ChatChunk) : List AEvent :=
  .message_start :: .content_block_start 0 (.text "") :: (chatLoop 0 chunks ++ [.message_stop])

/-! ### Responses SSE → Anthropic SSE: `stream_v1_responses_to_anthropic` -/

/-- `chunk.get("item", {})` of `response.output_item.added` /
`output_item.done`. -/
structure RItem where
  type : Option String := none
  id : Option String := none
  call_id : Option String := none
  name : Option String := none

/-- `chunk.get("response", {})` of `response.completed`:
`usage.get("output_tokens", 0)` and `response.get("output", [])`. -/
structure RResponse where
  usage_output_tokens : Option Nat := none
  output : List RItem := []

/-- One parsed `data:` payload of the upstream Responses stream.  The wire
field `delta` is a string for `response.output_text.delta` (`delta_text`)
and an object with `arguments` for `response.function_call_delta`
(`delta_args`); the field of the wrong shape is `none` for each event (the
handlers raise or skip on the other shape). -/
structure RChunk where
  item : Option RItem := none
  output_index : Option Int := none
  content_index : Option Int := none
  delta_text : Option String := none
  delta_args : Option String := none
  response : Option RResponse := none

/-- One upstream SSE line: an `event:` name line or a parsed `data:` line. -/
inductive RLine where
  | event (name : String)
  | data (chunk : RChunk)

/-- The transducer state: `message_started`, `current_block_index`,
`current_content_index`, and the one-line lookahead `event_type` (`none`
while no `event:` line has been seen; a `data:` line then raises a
`NameError` that the handler swallows).  The `open_blocks` dict of the
source is written but never read and is not modelled. -/
structure RState where
  messageStarted : Bool := false
  currentBlockIndex : Int := 0
  currentContentIndex : Int := 0
  eventType : Option String := none

/-- The handler body for one `data:` payload under event name `et`: the
event dispatch of `stream_v1_responses_to_anthropic`. -/
def processRData (st : RState) (et : String) (ck : RChunk) : RState × List AEvent :=
  if et = "response.created" then
    if st.messageStarted then (st, [])
    else ({st with messageStarted := true}, [.message_start])
  else if et = "response.output_item.added" then
    let item := ck.item.getD {}
    let outputIndex := ck.output_index.getD st.currentBlockIndex
    let closeEvents : List AEvent :=
      if st.currentBlockIndex > 0 ∧ st.currentBlockIndex ≠ outputIndex then
        [.content_block_stop (st.currentBlockIndex - 1)]
      else []
    let st1 := {st with currentBlockIndex := outputIndex}
    if item.type = some "message" then
      ({st1 with currentContentIndex := 0},
        closeEvents ++ [.content_block_start outputIndex (.text "")])
    else if item.type = some "function_call" then
      ({st1 with currentContentIndex := 0},
        closeEvents ++ [.content_block_start outputIndex
          (.tool_use (item.call_id.getD (item.id.getD "")) (item.name.getD ""))])
    else (st1, closeEvents)
  else if et = "response.content_part.added" then
    match ck.content_index with
    | none => (st, [])
    | some contentIndex =>
      if contentIndex > st.currentContentIndex then
        let evs : List AEvent :=
          if st.currentContentIndex > 0 then
            [.content_block_stop (st.currentBlockIndex - 1)]
          else []
        ({st with currentContentIndex := contentIndex}, evs)
      else (st, [])
  else if et = "response.output_text.delta" then
    let d := ck.delta_text.getD ""
    (st, if d = "" then [] else [.content_block_delta st.currentBlockIndex (.text_delta d)])
  else if et = "response.function_call_delta" then
    match ck.delta_args with
    | some a =>
      (st, if a = "" then [] else [.content_block_delta st.currentBlockIndex (.input_json_delta a)])
    | none => (st, [])
  else if et = "response.output_item.done" then
    let outputIndex := ck.output_index.getD st.currentBlockIndex
    (st, if outputIndex = st.currentBlockIndex then
      [.content_block_stop st.currentBlockIndex] else [])
  else if et = "response.completed" then
    let resp := ck.response.getD {}
    let stop_reason :=
      if resp.output.any (fun item => item.type = some "function_call")
      then "tool_use" else "end_turn"
    (st, [.message_delta stop_reason (resp.usage_output_tokens.getD 0), .message_stop])
  else (st, [])

/-- Process one SSE line: `event:` lines update the lookahead, `data:`
lines dispatch on it. -/
def stepRLine (st : RState) (l : RLine) : RState × List AEvent :=
  match l with
  | .event name => ({st with eventType := some name}, [])
  | .data ck =>
    match st.eventType with
    | none => (st, [])
    | some et => processRData st et ck

/-- The line-folding loop. -/
def respLoop : RState → List RLine → RState × List AEvent
  | st, [] => (st, [])
  | st, l :: ls =>
    let (st1, evs) := stepRLine st l
    let (st2, evs2) := respLoop st1 ls
    (st2, evs ++ evs2)

/-- `stream_v1_responses_to_anthropic` over the upstream SSE lines; after
the loop a trailing `message_stop` is emitted whenever `message_started`
is set (regardless of whether `response.completed` already emitted one). -/
def stream_v1_responses_to_anthropic (lines : List RLine) : List AEvent :=
  let (st, evs) := respLoop {} lines
  evs ++ (if st.messageStarted then [.message_stop] else [])

/-! ## Flavor detection (src/constants.py) and endpoints (src/routers) -/

/-- Python's `pat in s` substring test. -/
def strContains (hay pat : String) : Bool := decide (pat.toList <:+: hay.toList)

/-- `AppConfig._detect_api_type`: substring tests on the configured base
URL, defaulting to Chat-Completions. -/
def detect_api_type (url : String) : String :=
  if strContains url "/v1/responses" then "v1_responses"
  else if strContains url "/v1/chat/completions" then "v1_chat_completions"
  else "v1_chat_completions"

/-- The branch of `create_message` that picks the translator set:
`config.API_TYPE == "v1_responses"`. -/
def uses_responses_translator (url : String) : Bool :=
  detect_api_type url == "v1_responses"

/-- Python truthiness of an optional string (absent and `""` are falsy), as
applied to `x_api_key or config.OPENAI_API_KEY`. -/
def keyTruthy : Option String → Bool
  | some s => s ≠ ""
  | none => false

/-- The Anthropic-format error envelope `{type, error:{type, message}}`. -/
structure ErrorEnvelope where
  type : String
  error_type : String
  message : String
deriving DecidableEq

/-- The translated body handed to the upstream client. -/
inductive TargetBody where
  | chat (b : ChatBody)
  | responses (b : ResponsesBody)

/-- The observable outcome of `create_message` up to the upstream call.
`detailResponse status env` is an `HTTPException(status, detail=env)`
escaping the handler, which FastAPI renders as the JSON `{"detail": env}`
with that status — the envelope is nested under `detail`, not the response
body itself. -/
inductive CreateMessageOutcome where
  | detailResponse (status : Nat) (detail : ErrorEnvelope)
  | forward (body : TargetBody) (stream : Bool)

/-- The detail string of the 401 raised on a missing key. -/
def missingKeyDetail : String := "Missing API Key. Provide via x-api-key header or .env"

/-- `str(e)` for a starlette `HTTPException`: `"<status>: <detail>"`. -/
def httpExcStr (status : Nat) (detail : String) : String :=
  toString status ++ ": " ++ detail

/-- `create_message` (src/routers/messages.py) up to the upstream call.
The credential check runs first; the whole body sits in one `try` whose
`except Exception` also catches the handler's own 401 `HTTPException` and
re-raises `HTTPException(500, detail=<anthropic envelope>)`. -/
def create_message (xApiKey cfgApiKey : Option String) (apiType : String)
    (body : AnthropicRequest) : CreateMessageOutcome :=
  let target := if keyTruthy xApiKey then xApiKey else cfgApiKey
  if ¬ keyTruthy target then
    .detailResponse 500 ⟨"error", "internal_server_error", httpExcStr 401 missingKeyDetail⟩
  else if apiType = "v1_responses" then
    match transform_request_body_v1_responses body with
    | .error e => .detailResponse 500 ⟨"error", "internal_server_error", e.message⟩
    | .ok tb => .forward (.responses tb) tb.stream
  else
    match transform_request_body body with
    | .error e => .detailResponse 500 ⟨"error", "internal_server_error", e.message⟩
    | .ok tb => .forward (.chat tb) tb.stream

/-- `json.dumps(openai_body["tools"])` serialises the translated tools
array (wire shape `{type:"function", function:{name, description,
parameters}}`). -/
def toolsJson (ts : List ChatTool) : Json :=
  .arr (ts.map fun t => .obj
    [("type", .str "function"),
     ("function", .obj
       [("name", .str t.name), ("description", .str t.description),
        ("parameters", t.parameters)])])

/-- The per-message count of `count_openai_tokens`: 3 per envelope, plus
the encoded string content, plus name and arguments of each tool call.
The tiktoken encoder is an external dependency, abstracted as `encode`. -/
def msgTokens (encode : String → Nat) (m : ChatMessage) : Nat :=
  3 + (match m.content with
       | some (.str s) => encode s
       | _ => 0)
    + (match m.tool_calls with
       | some tcs => (tcs.map fun tc => encode tc.function.name
           + encode tc.function.arguments).sum
       | none => 0)

/-- `count_openai_tokens` (src/utils.py). -/
def count_openai_tokens (encode : String → Nat) (b : ChatBody) : Nat :=
  (b.messages.map (msgTokens encode)).sum + 3
    + (match b.tools with
       | some ts => encode (Json.dumps (toolsJson ts))
       | none => 0)

/-- The observable outcome of the count-tokens endpoint. -/
inductive CountTokensOutcome where
  | ok (input_tokens : Nat)
  | err (status : Nat) (message : String)
deriving DecidableEq

/-- `count_tokens_endpoint` (src/routers/count_tokens.py): translate, then
count; any exception becomes HTTP 500 `{"error": str(e)}`. -/
def count_tokens_endpoint (encode : String → Nat) (body : AnthropicRequest) :
    CountTokensOutcome :=
  match transform_request_body body with
  | .error e => .err 500 e.message
  | .ok b => .ok (count_openai_tokens encode b)

/-! ## The claims -/

/-- C1: the spec says a request with neither the `x-api-key` header nor a
configured `OPENAI_API_KEY` is answered with HTTP 401 and a bare
Anthropic-format error envelope.  In the code, the 401 `HTTPException` is
raised inside the handler's own `try` block, so `except Exception` catches
it and re-raises `HTTPException(500, detail=<envelope>)`: every such
request is answered with HTTP 500, the envelope nested under `"detail"`,
never with 401. -/
theorem c1_missing_credential_gives_500 (apiType : String) (body : AnthropicRequest) :
    create_message none none apiType body
      = .detailResponse 500
          ⟨"error", "internal_server_error", httpExcStr 401 missingKeyDetail⟩ := by
  rfl

/-- The parsed chunks of scenario S4 (standard Chat-Completions wire form:
each chunk is `{"choices":[{"delta":..., "finish_reason":...}]}`, the
final chunk carrying `"delta": {}` alongside its `finish_reason`). -/
def s4Chunks : List ChatChunk :=
  [⟨[⟨some ⟨none, [⟨0, some "call_a", some ⟨some "f", some ""⟩⟩]⟩, none⟩]⟩,
   ⟨[⟨some ⟨none, [⟨0, none, some ⟨none, some "\x7b\"x\":"⟩⟩]⟩, none⟩]⟩,
   ⟨[⟨some ⟨none, [⟨0, none, some ⟨none, some "1\x7d"⟩⟩]⟩, none⟩]⟩,
   ⟨[⟨some ⟨none, []⟩, some "tool_calls"⟩]⟩]

/-- C2: on the S4 input, the Chat-Completions stream transducer emits
exactly, in order: `message_start`, `content_block_start(0, text)`,
`content_block_stop(0)`, `content_block_start(1, tool_use, id=call_a,
name=f)`, the two `input_json_delta` events at index 1, then
`content_block_stop(1)`, `message_delta(stop_reason=tool_use)` and
`message_stop`. -/
theorem c2_s4_streaming_tool_call :
    stream_openai_to_anthropic s4Chunks
      = [.message_start,
         .content_block_start 0 (.text ""),
         .content_block_stop 0,
         .content_block_start 1 (.tool_use "call_a" "f"),
         .content_block_delta 1 (.input_json_delta "\x7b\"x\":"),
         .content_block_delta 1 (.input_json_delta "1\x7d"),
         .content_block_stop 1,
         .message_delta "tool_use" 10,
         .message_stop] := by
  decide

/-- An upstream Responses stream that does end with `response.completed`. -/
def c3Lines : List RLine :=
  [.event "response.created", .data {},
   .event "response.completed", .data {response := some ⟨some 7, []⟩}]

/-- C3: the spec promises a sole `message_stop` preceded by the sole
stop-reason `message_delta`.  The Responses transducer emits `message_stop`
inside the `response.completed` handler and then again after the loop: the
trailing guard checks only `message_started`, not whether a stop was
already sent (contradicting its own comment), so a completed stream ends
with two `message_stop` events. -/
theorem c3_double_message_stop :
    stream_v1_responses_to_anthropic c3Lines
      = [.message_start, .message_delta "end_turn" 7, .message_stop, .message_stop]
    ∧ (stream_v1_responses_to_anthropic c3Lines).count .message_stop = 2 := by
  decide

/-- An upstream Responses stream opening a text item at output index 1 and
then a function-call item at output index 2. -/
def c4Lines : List RLine :=
  [.event "response.created", .data {},
   .event "response.output_item.added",
   .data {item := some ⟨some "message", none, none, none⟩, output_index := some 1},
   .event "response.output_text.delta", .data {delta_text := some "hi"},
   .event "response.output_item.added",
   .data {item := some ⟨some "function_call", some "it1", some "call_b", some "g"⟩,
          output_index := some 2}]

/-- C4: the spec promises that every `content_block_delta` index is
bracketed by a start and a stop at that same index, and that the stop
emitted when `response.output_item.added` closes an earlier block carries
the open block's index.  The code emits
`content_block_stop(current_block_index - 1)` instead: here the open block
is index 1 (with a delta at index 1), yet the close event carries index 0
and no `content_block_stop(1)` is ever emitted. -/
theorem c4_stop_carries_wrong_index :
    stream_v1_responses_to_anthropic c4Lines
      = [.message_start,
         .content_block_start 1 (.text ""),
         .content_block_delta 1 (.text_delta "hi"),
         .content_block_stop 0,
         .content_block_start 2 (.tool_use "call_b" "g"),
         .message_stop]
    ∧ AEvent.content_block_stop 1 ∉ stream_v1_responses_to_anthropic c4Lines := by
  decide

/-- A chunk whose `choices[0]` carries `finish_reason: "length"` (with the
standard empty `delta`). -/
def c5Chunk : ChatChunk := ⟨[⟨some ⟨none, []⟩, some "length"⟩]⟩

/-- C5 counterexample: the claim says a streamed `finish_reason = "length"`
yields `stop_reason = "max_tokens"`.  On this chunk the transducer emits
`message_delta` with `"end_turn"`, and no event of the stream carries
`"max_tokens"`. -/
theorem c5_length_counterexample :
    stream_openai_to_anthropic [c5Chunk]
      = [.message_start, .content_block_start 0 (.text ""), .content_block_stop 0,
         .message_delta "end_turn" 10, .message_stop]
    ∧ (stream_openai_to_anthropic [c5Chunk]).all
        (fun e => match e with
          | .message_delta r _ => r == "end_turn"
          | _ => true) = true := by
  decide
/-- C5 amended: in the streaming transducer only `finish_reason =
"tool_calls"` maps to `"tool_use"`; everything else — including
`"length"` — maps to `"end_turn"` (the `length → max_tokens` mapping of
the unary translator is NOT extended to streaming).  For every chunk that
carries a delta and `finish_reason = "length"`, the chunk's final emitted
event is a `message_delta` with stop reason `"end_turn"`. -/
theorem getLast_append_two {α : Type} (xs : List α) (a b : α) :
    (xs ++ [a, b]).getLast? = some b := by
  rw [show xs ++ [a, b] = (xs ++ [a]) ++ [b] by simp]
  simp

theorem getLast_cons_append_two {α : Type} (c : α) (xs : List α) (a b : α) :
    (c :: (xs ++ [a, b])).getLast? = some b := by
  have h : (c :: (xs ++ [a])) ++ [b] = c :: (xs ++ [a, b]) := by
    simp [List.append_assoc]
  rw [← h, List.getLast?_append]
  rfl

theorem c5_amended_length_maps_to_end_turn (idx : Int) (ck : ChatChunk)
    (choice : ChatChoice) (d : ChatDelta)
    (h1 : ck.choices.head? = some choice) (h2 : choice.delta = some d)
    (h3 : choice.finish_reason = some "length") :
    (processChunk idx ck).2.getLast? = some (.message_delta "end_turn" 10) := by
  simp only [processChunk, h1, h2, h3]
  cases htc : d.tool_calls with
  | nil =>
    simp [htc, finishTruthy, streamFinishReason, List.getLast?_append, Option.or,
      getLast_append_two, getLast_cons_append_two]
  | cons tc tl =>
    by_cases ht : tc.index + 1 ≠ idx
    · simp [htc, ht, finishTruthy, streamFinishReason, List.getLast?_append, Option.or,
        getLast_append_two, getLast_cons_append_two]
    · simp [htc, ht, finishTruthy, streamFinishReason, List.getLast?_append, Option.or,
        getLast_append_two, getLast_cons_append_two]

/-- Witness for C5 amended at the concrete `length` chunk. -/
theorem c5_amended_witness :
    c5Chunk.choices.head? = some ⟨some ⟨none, []⟩, some "length"⟩
    ∧ (⟨some ⟨none, []⟩, some "length"⟩ : ChatChoice).delta = some ⟨none, []⟩
    ∧ (⟨some ⟨none, []⟩, some "length"⟩ : ChatChoice).finish_reason = some "length"
    ∧ (processChunk 0 c5Chunk).2.getLast? = some (.message_delta "end_turn" 10) :=
  ⟨rfl, rfl, rfl,
    c5_amended_length_maps_to_end_turn 0 c5Chunk ⟨some ⟨none, []⟩, some "length"⟩
      ⟨none, []⟩ rfl rfl rfl⟩
/-- A request whose only message is an assistant `tool_use` block. -/
def c6Request (I N : String) (J : Json) : AnthropicRequest :=
  { messages := [⟨"assistant", .blocks [.tool_use I N J]⟩] }

/-- An upstream reply whose `choices[0].message` carries exactly the
tool-call entry produced by the request translation. -/
def c6Reply (I N args : String) : OAIResponse :=
  { choices := [⟨⟨none, [⟨I, "function", ⟨N, args⟩⟩]⟩, some "tool_calls"⟩],
    model := some "m" }

/-- C6: an assistant `tool_use{id:I, name:N, input:J}` translates to
`tool_calls = [{id:I, type:"function", function:{name:N, arguments:
dumps J}}]`, and translating the upstream reply that carries exactly that
entry back through `transform_openai_response` yields
`tool_use{id:I, name:N, input:J}` again — the round trip is the identity
on id, name and input (using `loads_dumps`, the verified inverse of the
modelled `json` codec). -/
theorem c6_tool_use_round_trip (I N : String) (J : Json) :
    transform_request_body (c6Request I N J)
      = .ok { model := none,
              messages := [⟨"assistant", none, none,
                some [⟨I, "function", ⟨N, Json.dumps J⟩⟩]⟩],
              stream := false, max_tokens := 4096, temperature := 7 / 10,
              continue_final_message := some true, add_generation_prompt := some false,
              stop := none, top_p := none, presence_penalty := none,
              frequency_penalty := none, tools := none, tool_choice := none }
    ∧ transform_openai_response (c6Reply I N (Json.dumps J))
      = .ok { content := [.tool_use I N J], model := "m", stop_reason := "tool_use",
              input_tokens := 0, output_tokens := 0 } := by
  constructor
  · rfl
  · simp [transform_openai_response, c6Reply, List.mapM, List.mapM.loop, loads_dumps,
      Option.bind]
theorem filterMap_toolResultMsg (rs : List (String × Option TrContent)) :
    (rs.map fun p => ContentBlock.tool_result p.1 p.2).filterMap toolResultMsg
      = rs.map fun p =>
          (⟨"tool", some (.str (orSuccess (toolResultText p.2))), some p.1, none⟩
            : ChatMessage) := by
  induction rs with
  | nil => rfl
  | cons p tl ih => simp [toolResultMsg, ih]

theorem filterMap_trOutputItem (rs : List (String × Option TrContent)) :
    (rs.map fun p => ContentBlock.tool_result p.1 p.2).filterMap trOutputItem
      = rs.map fun p => RespItem.custom_tool_call_output p.1 (orSuccess (toolResultText p.2)) := by
  induction rs with
  | nil => rfl
  | cons p tl ih => simp [trOutputItem, ih]

/-- C7: a user message whose content is a nonempty list of `tool_result`
blocks and nothing else translates, under the Chat-Completions translator,
to exactly one role-`tool` message per block in original order (each with
`tool_call_id` from the block's `tool_use_id`) and to no user message; and
under the Responses translator, to exactly one standalone
`custom_tool_call_output{call_id, output}` item per block and no user
message item. -/
theorem c7_tool_result_demotion (rs : List (String × Option TrContent)) (h : rs ≠ []) :
    translateMsgChat ⟨"user", .blocks (rs.map fun p => .tool_result p.1 p.2)⟩
      = rs.map (fun p =>
          (⟨"tool", some (.str (orSuccess (toolResultText p.2))), some p.1, none⟩
            : ChatMessage))
    ∧ translateMsgResponses ⟨"user", .blocks (rs.map fun p => .tool_result p.1 p.2)⟩
      = rs.map (fun p => RespItem.custom_tool_call_output p.1 (orSuccess (toolResultText p.2))) := by
  cases rs with
  | nil => exact absurd rfl h
  | cons p0 tl =>
    have hc := filterMap_toolResultMsg (p0 :: tl)
    have hr := filterMap_trOutputItem (p0 :: tl)
    constructor
    · simp only [translateMsgChat]
      simp [isToolResult] at hc ⊢
      exact hc
    · simp only [translateMsgResponses]
      simp [isToolResult] at hr ⊢
      exact hr

/-- Witness for C7 at scenario S5's single `tool_result` block. -/
theorem c7_witness :
    ([("call_a", some (TrContent.str "42"))] : List (String × Option TrContent)) ≠ []
    ∧ translateMsgChat ⟨"user", .blocks [.tool_result "call_a" (some (.str "42"))]⟩
        = [⟨"tool", some (.str "42"), some "call_a", none⟩]
    ∧ translateMsgResponses ⟨"user", .blocks [.tool_result "call_a" (some (.str "42"))]⟩
        = [.custom_tool_call_output "call_a" "42"] := by
  have h := c7_tool_result_demotion [("call_a", some (TrContent.str "42"))] (by simp)
  refine ⟨by simp, ?_, ?_⟩
  · have h1 := h.1
    simpa [orSuccess, toolResultText] using h1
  · have h2 := h.2
    simpa [orSuccess, toolResultText] using h2

/-- A request carrying `tool_choice` but no `tools`. -/
def c8Request : AnthropicRequest :=
  { messages := [⟨"user", .str "hi"⟩], tool_choice := some ⟨"auto", none⟩ }

/-- C8 counterexample: the claim says the `tool_choice` mapping applies
even when `tools` is absent.  On this request (`tool_choice = auto`, no
`tools`) the translated body carries NO `tool_choice` at all. -/
theorem c8_counterexample :
    transform_request_body c8Request
      = .ok { model := none,
              messages := [⟨"user", some (.str "hi"), none, none⟩],
              stream := false, max_tokens := 4096, temperature := 7 / 10,
              continue_final_message := none, add_generation_prompt := none,
              stop := none, top_p := none, presence_penalty := none,
              frequency_penalty := none, tools := none, tool_choice := none } := by
  rfl

/-- C8 amended: `tool_choice` is mapped (`auto` to `"auto"`, `any` to
`"required"`, `tool` to `{type:"function", function:{name}}`) only when
the request's `tools` array is present and nonempty; when `tools` is
absent or empty, the outgoing body carries no `tool_choice`. -/
theorem c8_amended_tool_choice_only_with_tools (b : AnthropicRequest) (out : ChatBody)
    (hok : transform_request_body b = .ok out) :
    out.tool_choice
      = if (b.tools.getD []).isEmpty then none
        else b.tool_choice.bind fun tc =>
          if tc.type = "any" then some (.mode "required")
          else if tc.type = "auto" then some (.mode "auto")
          else if tc.type = "tool" then some (.function (tc.name.getD ""))
          else none := by
  have hiso : (match b.tools with
      | none => ([] : List ChatTool)
      | some ts => ts.map fun (t : Tool) =>
          (⟨t.name, t.description.getD "", t.input_schema⟩ : ChatTool)).isEmpty
      = (b.tools.getD []).isEmpty := by
    cases b.tools with
    | none => rfl
    | some ts => cases ts <;> rfl
  simp only [transform_request_body] at hok
  split at hok
  · exact absurd hok (by simp)
  · split at hok
    · exact absurd hok (by simp)
    · rename_i tcField heq
      simp only [Except.ok.injEq] at hok
      rw [← hok]
      rw [hiso] at heq
      by_cases hempty : (b.tools.getD []).isEmpty = true
      · rw [if_pos hempty] at heq
        rw [if_pos hempty]
        simp only [Except.ok.injEq] at heq
        simp [← heq]
      · rw [if_neg hempty] at heq
        rw [if_neg hempty]
        cases htc : b.tool_choice with
        | none =>
          simp only [htc, Except.ok.injEq] at heq
          simp [← heq]
        | some tc =>
          simp only [htc] at heq
          by_cases hany : tc.type = "any"
          · rw [if_pos hany] at heq
            simp only [Except.ok.injEq] at heq
            simp [← heq, hany]
          · rw [if_neg hany] at heq
            by_cases hauto : tc.type = "auto"
            · rw [if_pos hauto] at heq
              simp only [Except.ok.injEq] at heq
              simp [← heq, hany, hauto]
            · rw [if_neg hauto] at heq
              by_cases htool : tc.type = "tool"
              · rw [if_pos htool] at heq
                cases hn : tc.name with
                | none =>
                  simp only [hn] at heq
                  exact absurd heq (by simp)
                | some n =>
                  simp only [hn, Except.ok.injEq] at heq
                  simp [← heq, hn, hany, hauto, htool]
              · rw [if_neg htool] at heq
                simp only [Except.ok.injEq] at heq
                simp [← heq, hany, hauto, htool]

/-- A request carrying both a nonempty `tools` array and
`tool_choice = auto`, and its translation. -/
def c8AmendedReq : AnthropicRequest :=
  { messages := [⟨"user", .str "hi"⟩],
    tools := some [⟨"get_weather", none, .obj [("type", .str "object")]⟩],
    tool_choice := some ⟨"auto", none⟩ }

/-- The translation of `c8AmendedReq`. -/
def c8AmendedOut : ChatBody :=
  { model := none,
    messages := [⟨"user", some (.str "hi"), none, none⟩],
    stream := false, max_tokens := 4096, temperature := 7 / 10,
    continue_final_message := none, add_generation_prompt := none,
    stop := none, top_p := none, presence_penalty := none,
    frequency_penalty := none,
    tools := some [⟨"get_weather", "", .obj [("type", .str "object")]⟩],
    tool_choice := some (.mode "auto") }

/-- Witness for C8 amended: with tools present, `auto` maps to `"auto"`. -/
theorem c8_amended_witness :
    transform_request_body c8AmendedReq = .ok c8AmendedOut
    ∧ c8AmendedOut.tool_choice = some (.mode "auto") :=
  ⟨rfl, (c8_amended_tool_choice_only_with_tools c8AmendedReq c8AmendedOut rfl).trans (by rfl)⟩

/-- C9: the adapter routes through the Responses translator exactly when
the configured base URL contains the substring `/v1/responses`; every
other URL — whether or not it mentions `/v1/chat/completions` — yields
the Chat-Completions flavor. -/
theorem c9_flavor_selection (url : String) :
    (uses_responses_translator url = true ↔ "/v1/responses".toList <:+: url.toList)
    ∧ detect_api_type url
        = (if "/v1/responses".toList <:+: url.toList then "v1_responses"
           else "v1_chat_completions") := by
  by_cases h : "/v1/responses".toList <:+: url.toList
  · constructor
    · simp [uses_responses_translator, detect_api_type, strContains, h]
    · simp [detect_api_type, strContains, h]
  · constructor
    · simp [uses_responses_translator, detect_api_type, strContains, h]
    · simp [detect_api_type, strContains, h]

/-- C10: a request with no `system` and an empty `messages` list never
produces a translated Chat-Completions body: `openai_messages[-1]` raises
on the empty list, so `transform_request_body` errors, the count-tokens
endpoint answers HTTP 500 `{"error": "list index out of range"}` instead
of forwarding, and the messages endpoint answers HTTP 500 with the
Anthropic-shape envelope. -/
theorem c10_empty_messages_error (encode : String → Nat) (b : AnthropicRequest)
    (h1 : b.system = none) (h2 : b.messages = []) :
    transform_request_body b = .error .emptyMessages
    ∧ count_tokens_endpoint encode b = .err 500 "list index out of range"
    ∧ create_message (some "k") none "v1_chat_completions" b
        = .detailResponse 500 ⟨"error", "internal_server_error", "list index out of range"⟩ := by
  have htr : transform_request_body b = .error .emptyMessages := by
    simp [transform_request_body, h1, h2]
  refine ⟨htr, ?_, ?_⟩
  · simp [count_tokens_endpoint, htr, TransErr.message]
  · simp [create_message, keyTruthy, htr, TransErr.message]

/-- Witness for C10 at the empty request. -/
theorem c10_witness :
    ({} : AnthropicRequest).system = none
    ∧ ({} : AnthropicRequest).messages = []
    ∧ transform_request_body {} = .error .emptyMessages
    ∧ count_tokens_endpoint String.length {} = .err 500 "list index out of range"
    ∧ create_message (some "k") none "v1_chat_completions" {}
        = .detailResponse 500 ⟨"error", "internal_server_error", "list index out of range"⟩ := by
  have h := c10_empty_messages_error String.length {} rfl rfl
  exact ⟨rfl, rfl, h.1, h.2.1, h.2.2⟩
end AnthropicAdapter
